import Mathlib

/-!
Verification of the Bookmark Manager REST API (`src/server.js`), a single-file
Express + SQLite CRUD service.  The five route handlers are shallowly embedded
as pure Lean functions over an explicit store (the `bookmarks` table as a list
of rows).  JavaScript request-body fields are modelled by `JsVal`
(absent / `null` / string), so that the `??` and `|| null` coalescing in the
handlers and the dropping of `undefined` keys by JSON serialization can be
stated faithfully.  Nondeterministic inputs (`uuidv4()`, `new Date()`, driver
faults) are passed as explicit parameters.
-/

namespace BookmarkAPI

/-- A JavaScript value appearing as a request-body field: the field can be
absent from the JSON object (`undef`), present with value `null`, or a
string.  In a JSON response, a field holding `undef` is dropped by
`JSON.stringify`, so `undef` in a response record means the key is absent. -/
inductive JsVal where
  | undef
  | null
  | str (s : String)
deriving DecidableEq, Repr

/-- A row of the `bookmarks` table: `id TEXT PRIMARY KEY, url TEXT NOT NULL,
title TEXT NOT NULL, description TEXT, created_at TEXT NOT NULL`.
The nullable `description` column is an `Option String`. -/
structure Bookmark where
  id : String
  url : String
  title : String
  description : Option String
  created_at : String
deriving DecidableEq, Repr

/-- The state of the `bookmarks` table. -/
abbrev Store := List Bookmark

/-- A parsed JSON request body `{url?, title?, description?}` as destructured
by the handlers (`const \x7b url, title, description \x7d = req.body`). -/
structure Body where
  url : JsVal
  title : JsVal
  description : JsVal
deriving DecidableEq, Repr

/-- A bookmark record as it appears in a JSON response body.  `description`
is a `JsVal` because the create handler echoes the raw body value (which can
be `undefined`, hence absent from the serialized JSON), while the get/update
handlers produce the column value (string or `null`). -/
structure RecordOut where
  id : String
  url : String
  title : String
  description : JsVal
  created_at : String
deriving DecidableEq, Repr

/-- The JSON response body sent by a handler. -/
inductive Resp where
  | record (r : RecordOut)
  | arr (rs : List RecordOut)
  | errs (es : List (String × String))
  | msg (m : String)
  | empty
deriving DecidableEq, Repr

/-- Result of running one handler: HTTP status, response body, and the table
state afterwards. -/
structure HRes where
  status : Nat
  resp : Resp
  store : Store
deriving DecidableEq, Repr

/-- A SQL `NULL` / string column value rendered into JSON. -/
def optToJs : Option String → JsVal
  | none => JsVal.null
  | some s => JsVal.str s

/-- JavaScript `description || null` over our value domain: any falsy value
(absent, `null`, the empty string) becomes `NULL`; a non-empty string is kept.
Used by the create handler when binding the INSERT parameters. -/
def jsOrNull : JsVal → Option String
  | JsVal.str s => if s = "" then none else some s
  | _ => none

/-- JavaScript `v ?? prior` where `prior` is a `NOT NULL` column value:
only a string on the left short-circuits; `null` and `undefined` fall through
to the prior value.  Used for `url ?? bookmark.url` / `title ?? bookmark.title`. -/
def nullishStr : JsVal → String → String
  | JsVal.str s, _ => s
  | _, prior => prior

/-- JavaScript `v ?? prior` where `prior` is the nullable `description`
column value: `description ?? bookmark.description`. -/
def nullishOpt : JsVal → Option String → Option String
  | JsVal.str s, _ => some s
  | _, prior => prior

/-- The string a validated body field holds (validation guarantees the `str`
case before this is consulted). -/
def JsVal.getStr : JsVal → String
  | JsVal.str s => s
  | _ => ""

/-- Modelled from the spec: URL-syntax validation (`body("url").isURL()`),
implemented by the external `express-validator`/`validator` library, which is
a dependency and not part of `src/`.  Simplified to the essentials the spec
relies on: a syntactically valid URL is a non-empty string without spaces
containing a dot (validator's default `require_tld`); in particular
`"not-a-url"` is rejected and the empty string is rejected. -/
def isURL (s : String) : Bool :=
  (s != "") && !(s.data.contains ' ') && (s.data.contains '.')

/-- `db.get(SELECT * FROM bookmarks WHERE id = ?)`: the first matching row. -/
def dbGet (s : Store) (id : String) : Option Bookmark :=
  match s with
  | [] => none
  | r :: rest => if r.id == id then some r else dbGet rest id

/-- Whether a row with the given primary key exists (the PRIMARY KEY
constraint makes INSERT fail exactly when it does). -/
def dbIdExists (s : Store) (id : String) : Bool :=
  s.any (fun r => r.id == id)

/-- `UPDATE bookmarks SET url = ?, title = ?, description = ? WHERE id = ?`. -/
def dbUpdateRow (s : Store) (id u t : String) (d : Option String) : Store :=
  s.map (fun r =>
    if r.id == id then { r with url := u, title := t, description := d } else r)

/-- `DELETE FROM bookmarks WHERE id = ?`: the remaining rows. -/
def dbDeleteRows (s : Store) (id : String) : Store :=
  s.filter (fun r => !(r.id == id))

/-- `this.changes` after the DELETE: how many rows matched. -/
def dbChanges (s : Store) (id : String) : Nat :=
  s.countP (fun r => r.id == id)

/-- `body("url").isURL().withMessage("Invalid URL")` on the create route:
the field is required, so a missing or `null` url also fails. -/
def urlErrorsCreate : JsVal → List (String × String)
  | JsVal.str s => if isURL s then [] else [("url", "Invalid URL")]
  | _ => [("url", "Invalid URL")]

/-- `body("title").notEmpty().withMessage("Title is required")` on the create
route: missing, `null` and empty-string titles all fail. -/
def titleErrorsCreate : JsVal → List (String × String)
  | JsVal.str s => if s = "" then [("title", "Title is required")] else []
  | _ => [("title", "Title is required")]

/-- `validationResult(req).array()` for the create route. -/
def valErrorsCreate (b : Body) : List (String × String) :=
  urlErrorsCreate b.url ++ titleErrorsCreate b.title

/-- `body("url").optional().isURL()` on the update route: `optional()` skips
only an absent field, so a present `null` or invalid string fails. -/
def urlErrorsUpdate : JsVal → List (String × String)
  | JsVal.undef => []
  | JsVal.str s => if isURL s then [] else [("url", "Invalid URL")]
  | JsVal.null => [("url", "Invalid URL")]

/-- `body("title").optional().notEmpty().withMessage("Title cannot be empty")`
on the update route. -/
def titleErrorsUpdate : JsVal → List (String × String)
  | JsVal.undef => []
  | JsVal.str s => if s = "" then [("title", "Title cannot be empty")] else []
  | JsVal.null => [("title", "Title cannot be empty")]

/-- `validationResult(req).array()` for the update route. -/
def valErrorsUpdate (b : Body) : List (String × String) :=
  urlErrorsUpdate b.url ++ titleErrorsUpdate b.title

/-- A stored row rendered as the JSON record the get/update handlers send. -/
def Bookmark.toOut (r : Bookmark) : RecordOut :=
  ⟨r.id, r.url, r.title, optToJs r.description, r.created_at⟩

/-- `app.post("/bookmarks", ...)`: validate; on failure 400 with the error
array and no storage call.  Otherwise insert `(freshId, url, title,
description || null, ts)` — the INSERT errs (500) on a driver fault or a
primary-key collision — and respond 201 echoing the raw body `description`. -/
def postBookmarks (s : Store) (b : Body) (freshId ts : String) (fault : Bool) :
    HRes :=
  if valErrorsCreate b ≠ [] then
    ⟨400, Resp.errs (valErrorsCreate b), s⟩
  else
    let url := b.url.getStr
    let title := b.title.getStr
    if fault || dbIdExists s freshId then
      ⟨500, Resp.msg "Database error", s⟩
    else
      ⟨201, Resp.record ⟨freshId, url, title, b.description, ts⟩,
        s ++ [⟨freshId, url, title, jsOrNull b.description, ts⟩]⟩

/-- `app.get("/bookmarks", ...)`: 500 on a driver fault, else 200 with every
row. -/
def getBookmarks (s : Store) (fault : Bool) : HRes :=
  if fault then ⟨500, Resp.msg "Database error", s⟩
  else ⟨200, Resp.arr (s.map Bookmark.toOut), s⟩

/-- `app.get("/bookmarks/:id", ...)`: 500 on a driver fault, 404 if no row
matches, else 200 with the row. -/
def getBookmarkById (s : Store) (id : String) (fault : Bool) : HRes :=
  if fault then ⟨500, Resp.msg "Database error", s⟩
  else
    match dbGet s id with
    | none => ⟨404, Resp.msg "Bookmark not found", s⟩
    | some r => ⟨200, Resp.record r.toOut, s⟩

/-- `app.put("/bookmarks/:id", ...)`: validate (400 before any lookup), 500
on a driver fault, 404 if the row is absent; otherwise merge each supplied
field over the existing row with `??`, UPDATE the row, and respond 200 with
`\x7b...bookmark, ...updatedBookmark\x7d`. -/
def putBookmarks (s : Store) (id : String) (b : Body) (fault : Bool) : HRes :=
  if valErrorsUpdate b ≠ [] then
    ⟨400, Resp.errs (valErrorsUpdate b), s⟩
  else if fault then
    ⟨500, Resp.msg "Database error", s⟩
  else
    match dbGet s id with
    | none => ⟨404, Resp.msg "Bookmark not found", s⟩
    | some bm =>
      let u := nullishStr b.url bm.url
      let t := nullishStr b.title bm.title
      let d := nullishOpt b.description bm.description
      ⟨200, Resp.record ⟨bm.id, u, t, optToJs d, bm.created_at⟩,
        dbUpdateRow s id u t d⟩

/-- `app.delete("/bookmarks/:id", ...)`: 500 on a driver fault; run the
DELETE, then 404 if `this.changes === 0`, else 204 with an empty body. -/
def deleteBookmark (s : Store) (id : String) (fault : Bool) : HRes :=
  if fault then ⟨500, Resp.msg "Database error", s⟩
  else if dbChanges s id = 0 then
    ⟨404, Resp.msg "Bookmark not found", dbDeleteRows s id⟩
  else
    ⟨204, Resp.empty, dbDeleteRows s id⟩

/-- One mutating API call, with its nondeterministic inputs. -/
inductive Op where
  | create (b : Body) (freshId ts : String) (fault : Bool)
  | update (id : String) (b : Body) (fault : Bool)
  | del (id : String) (fault : Bool)

/-- The store after running one mutating handler. -/
def applyOp (s : Store) : Op → Store
  | Op.create b i t f => (postBookmarks s b i t f).store
  | Op.update i b f => (putBookmarks s i b f).store
  | Op.del i f => (deleteBookmark s i f).store

/-- Stores reachable from the empty table by any sequence of create, update
and delete requests. -/
inductive Reachable : Store → Prop where
  | empty : Reachable []
  | step {s : Store} (op : Op) : Reachable s → Reachable (applyOp s op)

/-- The §3 data-model invariant: ids are pairwise distinct (each id names at
most one row), and every row has a syntactically valid (hence non-empty) url
and a non-empty title. -/
def StoreWF (s : Store) : Prop :=
  (s.map (fun r => r.id)).Nodup ∧ ∀ r ∈ s, isURL r.url = true ∧ r.title ≠ ""

theorem isURL_ne_empty {s : String} (h : isURL s = true) : s ≠ "" := by
  intro hs
  subst hs
  exact absurd h (by decide)

theorem urlErrorsCreate_eq_nil {v : JsVal} :
    urlErrorsCreate v = [] ↔ ∃ u, v = JsVal.str u ∧ isURL u = true := by
  cases v with
  | undef => simp [urlErrorsCreate]
  | null => simp [urlErrorsCreate]
  | str s => by_cases hu : isURL s = true <;> simp [urlErrorsCreate, hu]

theorem titleErrorsCreate_eq_nil {v : JsVal} :
    titleErrorsCreate v = [] ↔ ∃ t, v = JsVal.str t ∧ t ≠ "" := by
  cases v with
  | undef => simp [titleErrorsCreate]
  | null => simp [titleErrorsCreate]
  | str s => by_cases ht : s = "" <;> simp [titleErrorsCreate, ht]

theorem valErrorsCreate_eq_nil {b : Body} :
    valErrorsCreate b = [] ↔
      (∃ u, b.url = JsVal.str u ∧ isURL u = true) ∧
      (∃ t, b.title = JsVal.str t ∧ t ≠ "") := by
  rw [valErrorsCreate, List.append_eq_nil, urlErrorsCreate_eq_nil,
    titleErrorsCreate_eq_nil]

theorem urlErrorsUpdate_eq_nil {v : JsVal} :
    urlErrorsUpdate v = [] ↔
      v = JsVal.undef ∨ ∃ u, v = JsVal.str u ∧ isURL u = true := by
  cases v with
  | undef => simp [urlErrorsUpdate]
  | null => simp [urlErrorsUpdate]
  | str s => by_cases hu : isURL s = true <;> simp [urlErrorsUpdate, hu]

theorem titleErrorsUpdate_eq_nil {v : JsVal} :
    titleErrorsUpdate v = [] ↔
      v = JsVal.undef ∨ ∃ t, v = JsVal.str t ∧ t ≠ "" := by
  cases v with
  | undef => simp [titleErrorsUpdate]
  | null => simp [titleErrorsUpdate]
  | str s => by_cases ht : s = "" <;> simp [titleErrorsUpdate, ht]

theorem valErrorsUpdate_eq_nil {b : Body} :
    valErrorsUpdate b = [] ↔
      (b.url = JsVal.undef ∨ ∃ u, b.url = JsVal.str u ∧ isURL u = true) ∧
      (b.title = JsVal.undef ∨ ∃ t, b.title = JsVal.str t ∧ t ≠ "") := by
  rw [valErrorsUpdate, List.append_eq_nil, urlErrorsUpdate_eq_nil,
    titleErrorsUpdate_eq_nil]

theorem dbIdExists_eq_false {s : Store} {i : String} :
    dbIdExists s i = false ↔ ∀ r ∈ s, r.id ≠ i := by
  simp [dbIdExists]

theorem dbGet_eq_none {s : Store} {i : String} :
    dbGet s i = none ↔ ∀ r ∈ s, r.id ≠ i := by
  induction s with
  | nil => simp [dbGet]
  | cons a as ih =>
    by_cases ha : a.id = i
    · simp [dbGet, ha]
    · simp [dbGet, ha, ih]

theorem dbGet_mem {s : Store} {i : String} {bm : Bookmark}
    (h : dbGet s i = some bm) : bm ∈ s ∧ bm.id = i := by
  induction s with
  | nil => simp [dbGet] at h
  | cons a as ih =>
    by_cases ha : a.id = i
    · simp [dbGet, ha] at h
      subst h
      exact ⟨List.mem_cons_self _ _, ha⟩
    · simp [dbGet, ha] at h
      rcases ih h with ⟨h1, h2⟩
      exact ⟨List.mem_cons_of_mem _ h1, h2⟩

theorem dbGet_append_fresh {s : Store} {i : String}
    (h : ∀ r ∈ s, r.id ≠ i) (r : Bookmark) :
    dbGet (s ++ [r]) i = if r.id == i then some r else none := by
  induction s with
  | nil => rfl
  | cons a as ih =>
    have ha : a.id ≠ i := h a (List.mem_cons_self a as)
    have has : ∀ x ∈ as, x.id ≠ i := fun x hx => h x (List.mem_cons_of_mem _ hx)
    simpa [dbGet, ha] using ih has

theorem dbGet_dbUpdateRow {s : Store} {i : String} {bm : Bookmark}
    (h : dbGet s i = some bm) (u t : String) (d : Option String) :
    dbGet (dbUpdateRow s i u t d) i =
      some { bm with url := u, title := t, description := d } := by
  induction s with
  | nil => simp [dbGet] at h
  | cons a as ih =>
    by_cases ha : a.id = i
    · simp [dbGet, ha] at h
      subst h
      simp [dbGet, dbUpdateRow, ha]
    · simp [dbGet, ha] at h
      have hrec := ih h
      simp [dbGet, dbUpdateRow, ha] at hrec ⊢
      exact hrec

theorem mem_dbUpdateRow_of_ne {s : Store} {i : String} {r : Bookmark}
    (hr : r ∈ s) (hne : r.id ≠ i) (u t : String) (d : Option String) :
    r ∈ dbUpdateRow s i u t d := by
  unfold dbUpdateRow
  have heq :
      (fun x : Bookmark =>
        if x.id == i then { x with url := u, title := t, description := d }
        else x) r = r := by
    simp [hne]
  exact heq ▸ List.mem_map_of_mem _ hr

theorem dbUpdateRow_map_id (s : Store) (i u t : String) (d : Option String) :
    (dbUpdateRow s i u t d).map (fun r => r.id) = s.map (fun r => r.id) := by
  induction s with
  | nil => rfl
  | cons a as ih =>
    simp only [dbUpdateRow, List.map_cons] at ih ⊢
    rw [ih]
    congr 1
    split <;> rfl

theorem dbChanges_eq_zero {s : Store} {i : String} :
    dbChanges s i = 0 ↔ ∀ r ∈ s, r.id ≠ i := by
  simp [dbChanges, List.countP_eq_zero]

theorem dbDeleteRows_eq_self {s : Store} {i : String}
    (h : ∀ r ∈ s, r.id ≠ i) : dbDeleteRows s i = s := by
  apply List.filter_eq_self.mpr
  intro a ha
  simpa using h a ha

theorem mem_dbDeleteRows {s : Store} {i : String} {r : Bookmark}
    (h : r ∈ dbDeleteRows s i) : r ∈ s ∧ r.id ≠ i := by
  have := List.mem_filter.mp h
  exact ⟨this.1, by simpa using this.2⟩

theorem eq_of_nodup_ids {s : Store} (h : (s.map (fun r => r.id)).Nodup)
    {a b : Bookmark} (ha : a ∈ s) (hb : b ∈ s) (hab : a.id = b.id) : a = b :=
  List.inj_on_of_nodup_map h ha hb hab

theorem mem_urlErrorsCreate {v : JsVal} {e : String × String}
    (h : e ∈ urlErrorsCreate v) : e = ("url", "Invalid URL") := by
  cases v with
  | undef => simpa [urlErrorsCreate] using h
  | null => simpa [urlErrorsCreate] using h
  | str s =>
    by_cases hu : isURL s = true
    · simp [urlErrorsCreate, hu] at h
    · simpa [urlErrorsCreate, hu] using h

theorem mem_titleErrorsCreate {v : JsVal} {e : String × String}
    (h : e ∈ titleErrorsCreate v) : e = ("title", "Title is required") := by
  cases v with
  | undef => simpa [titleErrorsCreate] using h
  | null => simpa [titleErrorsCreate] using h
  | str s =>
    by_cases ht : s = ""
    · simpa [titleErrorsCreate, ht] using h
    · simp [titleErrorsCreate, ht] at h

theorem mem_urlErrorsUpdate {v : JsVal} {e : String × String}
    (h : e ∈ urlErrorsUpdate v) : e = ("url", "Invalid URL") := by
  cases v with
  | undef => simp [urlErrorsUpdate] at h
  | null => simpa [urlErrorsUpdate] using h
  | str s =>
    by_cases hu : isURL s = true
    · simp [urlErrorsUpdate, hu] at h
    · simpa [urlErrorsUpdate, hu] using h

theorem mem_titleErrorsUpdate {v : JsVal} {e : String × String}
    (h : e ∈ titleErrorsUpdate v) : e = ("title", "Title cannot be empty") := by
  cases v with
  | undef => simp [titleErrorsUpdate] at h
  | null => simpa [titleErrorsUpdate] using h
  | str s =>
    by_cases ht : s = ""
    · simpa [titleErrorsUpdate, ht] using h
    · simp [titleErrorsUpdate, ht] at h

/-- Claim C8: for every get-by-id request, a matching row yields 200 with
that record, no matching row (any unused id) yields 404 with a not-found
message, and a storage fault yields 500. -/
theorem get_by_id_spec (s : Store) (i : String) :
    ((getBookmarkById s i true).status = 500 ∧
      (getBookmarkById s i true).resp = Resp.msg "Database error") ∧
    ((∀ r ∈ s, r.id ≠ i) →
      getBookmarkById s i false = ⟨404, Resp.msg "Bookmark not found", s⟩) ∧
    ((∃ r ∈ s, r.id = i) →
      ∃ bm, bm ∈ s ∧ bm.id = i ∧
        getBookmarkById s i false = ⟨200, Resp.record bm.toOut, s⟩) := by
  refine ⟨⟨rfl, rfl⟩, ?_, ?_⟩
  · intro h
    have hn : dbGet s i = none := dbGet_eq_none.mpr h
    simp [getBookmarkById, hn]
  · rintro ⟨r, hr, hri⟩
    cases hg : dbGet s i with
    | none => exact absurd hri (dbGet_eq_none.mp hg r hr)
    | some bm =>
      rcases dbGet_mem hg with ⟨h1, h2⟩
      exact ⟨bm, h1, h2, by simp [getBookmarkById, hg]⟩

/-- Witness for C8 at a concrete store: a lookup of an unused id "zz" and a
lookup of the present id "a1". -/
theorem get_by_id_spec_witness :
    (∀ r ∈ ([⟨"a1", "https://ex.com", "T", none, "t0"⟩] : Store), r.id ≠ "zz") ∧
    getBookmarkById [⟨"a1", "https://ex.com", "T", none, "t0"⟩] "zz" false
      = ⟨404, Resp.msg "Bookmark not found",
          [⟨"a1", "https://ex.com", "T", none, "t0"⟩]⟩ ∧
    (∃ bm, bm ∈ ([⟨"a1", "https://ex.com", "T", none, "t0"⟩] : Store) ∧
      bm.id = "a1" ∧
      getBookmarkById [⟨"a1", "https://ex.com", "T", none, "t0"⟩] "a1" false
        = ⟨200, Resp.record bm.toOut,
            [⟨"a1", "https://ex.com", "T", none, "t0"⟩]⟩) :=
  ⟨by decide,
   (get_by_id_spec [⟨"a1", "https://ex.com", "T", none, "t0"⟩] "zz").2.1
     (by decide),
   (get_by_id_spec [⟨"a1", "https://ex.com", "T", none, "t0"⟩] "a1").2.2
     ⟨⟨"a1", "https://ex.com", "T", none, "t0"⟩, by decide, rfl⟩⟩

/-- Claim C4: delete responds 404 when no row matches the path id (zero rows
affected, store unchanged); otherwise it removes the matching row and
responds 204 with an empty body, so two consecutive deletes of an existing
id return 204 then 404. -/
theorem delete_spec (s : Store) (i : String) :
    ((∀ r ∈ s, r.id ≠ i) →
      deleteBookmark s i false = ⟨404, Resp.msg "Bookmark not found", s⟩) ∧
    ((∃ r ∈ s, r.id = i) →
      (deleteBookmark s i false).status = 204 ∧
      (deleteBookmark s i false).resp = Resp.empty ∧
      (∀ r ∈ (deleteBookmark s i false).store, r.id ≠ i) ∧
      (∀ r ∈ s, r.id ≠ i → r ∈ (deleteBookmark s i false).store) ∧
      (deleteBookmark (deleteBookmark s i false).store i false).status = 404) := by
  constructor
  · intro h
    have hc : dbChanges s i = 0 := dbChanges_eq_zero.mpr h
    have hd : dbDeleteRows s i = s := dbDeleteRows_eq_self h
    simp [deleteBookmark, hc, hd]
  · rintro ⟨r, hr, hri⟩
    have hc : dbChanges s i ≠ 0 := fun h0 => (dbChanges_eq_zero.mp h0) r hr hri
    have hmem : ∀ x ∈ dbDeleteRows s i, x.id ≠ i :=
      fun x hx => (mem_dbDeleteRows hx).2
    refine ⟨by simp [deleteBookmark, hc], by simp [deleteBookmark, hc], ?_, ?_, ?_⟩
    · intro x hx
      exact hmem x (by simpa [deleteBookmark, hc] using hx)
    · intro x hx hxi
      have : x ∈ dbDeleteRows s i :=
        List.mem_filter.mpr ⟨hx, by simpa using hxi⟩
      simpa [deleteBookmark, hc] using this
    · have hst : (deleteBookmark s i false).store = dbDeleteRows s i := by
        simp [deleteBookmark, hc]
      rw [hst]
      have hc2 : dbChanges (dbDeleteRows s i) i = 0 := dbChanges_eq_zero.mpr hmem
      simp [deleteBookmark, hc2]

/-- Witness for C4: deleting "a1" from a one-row store returns 204, and the
immediate second delete returns 404. -/
theorem delete_spec_witness :
    (∃ r ∈ ([⟨"a1", "https://ex.com", "T", none, "t0"⟩] : Store), r.id = "a1") ∧
    (deleteBookmark [⟨"a1", "https://ex.com", "T", none, "t0"⟩] "a1" false).status = 204 ∧
    (deleteBookmark
        (deleteBookmark [⟨"a1", "https://ex.com", "T", none, "t0"⟩] "a1" false).store
        "a1" false).status = 404 :=
  ⟨⟨⟨"a1", "https://ex.com", "T", none, "t0"⟩, by decide, rfl⟩,
   ((delete_spec [⟨"a1", "https://ex.com", "T", none, "t0"⟩] "a1").2
     ⟨⟨"a1", "https://ex.com", "T", none, "t0"⟩, by decide, rfl⟩).1,
   ((delete_spec [⟨"a1", "https://ex.com", "T", none, "t0"⟩] "a1").2
     ⟨⟨"a1", "https://ex.com", "T", none, "t0"⟩, by decide, rfl⟩).2.2.2.2⟩

/-- Claim C5: a create request failing validation (malformed url, or
missing/empty title) responds 400 with a non-empty structured list of field
errors, makes no storage call (the store is unchanged), and a subsequent
list returns the same rows as before. -/
theorem create_invalid_spec (s : Store) (b : Body) (i t : String) (f : Bool)
    (h : (∀ u, b.url = JsVal.str u → isURL u = false) ∨
         (∀ x, b.title = JsVal.str x → x = "")) :
    (postBookmarks s b i t f).status = 400 ∧
    (∃ es, (postBookmarks s b i t f).resp = Resp.errs es ∧ es ≠ [] ∧
      ∀ e ∈ es, e = ("url", "Invalid URL") ∨ e = ("title", "Title is required")) ∧
    (postBookmarks s b i t f).store = s ∧
    getBookmarks (postBookmarks s b i t f).store false = getBookmarks s false := by
  have hne : valErrorsCreate b ≠ [] := by
    intro h0
    rcases valErrorsCreate_eq_nil.mp h0 with ⟨⟨u, hu, hu2⟩, ⟨x, hx, hx2⟩⟩
    rcases h with h | h
    · rw [h u hu] at hu2
      exact Bool.false_ne_true hu2
    · exact hx2 (h x hx)
  have hmem : ∀ e ∈ valErrorsCreate b,
      e = ("url", "Invalid URL") ∨ e = ("title", "Title is required") := by
    intro e he
    rcases List.mem_append.mp he with he | he
    · exact Or.inl (mem_urlErrorsCreate he)
    · exact Or.inr (mem_titleErrorsCreate he)
  refine ⟨by simp [postBookmarks, hne], ⟨valErrorsCreate b,
    by simp [postBookmarks, hne], hne, hmem⟩, by simp [postBookmarks, hne],
    by simp [postBookmarks, hne]⟩

/-- Witness for C5: creating with the malformed url "not-a-url" on an empty
store returns 400 and leaves the store empty. -/
theorem create_invalid_spec_witness :
    (∀ u, JsVal.str "not-a-url" = JsVal.str u → isURL u = false) ∧
    (postBookmarks [] ⟨JsVal.str "not-a-url", JsVal.str "T", JsVal.undef⟩
        "id1" "t0" false).status = 400 ∧
    (postBookmarks [] ⟨JsVal.str "not-a-url", JsVal.str "T", JsVal.undef⟩
        "id1" "t0" false).store = [] :=
  ⟨fun u hu => by injection hu with h; subst h; decide,
   (create_invalid_spec [] ⟨JsVal.str "not-a-url", JsVal.str "T", JsVal.undef⟩
      "id1" "t0" false
      (Or.inl (fun u hu => by injection hu with h; subst h; decide))).1,
   (create_invalid_spec [] ⟨JsVal.str "not-a-url", JsVal.str "T", JsVal.undef⟩
      "id1" "t0" false
      (Or.inl (fun u hu => by injection hu with h; subst h; decide))).2.2.1⟩

/-- Claim C6: an update whose url is present but not valid URL syntax, or
whose title is present but empty, responds 400 with field errors and leaves
the store untouched (no lookup result is consulted); a validated update on an
id with no matching record responds 404 with the store unchanged. -/
theorem update_invalid_spec (s : Store) (i : String) (b : Body) :
    (((∃ u, b.url = JsVal.str u ∧ isURL u = false) ∨ b.url = JsVal.null ∨
      b.title = JsVal.str "" ∨ b.title = JsVal.null) →
      (putBookmarks s i b false).status = 400 ∧
      (∃ es, (putBookmarks s i b false).resp = Resp.errs es ∧ es ≠ [] ∧
        ∀ e ∈ es,
          e = ("url", "Invalid URL") ∨ e = ("title", "Title cannot be empty")) ∧
      (putBookmarks s i b false).store = s) ∧
    ((b.url = JsVal.undef ∨ ∃ u, b.url = JsVal.str u ∧ isURL u = true) →
     (b.title = JsVal.undef ∨ ∃ x, b.title = JsVal.str x ∧ x ≠ "") →
     (∀ r ∈ s, r.id ≠ i) →
      putBookmarks s i b false = ⟨404, Resp.msg "Bookmark not found", s⟩) := by
  constructor
  · intro h
    have hne : valErrorsUpdate b ≠ [] := by
      rcases h with ⟨u, hu1, hu2⟩ | h | h | h
      · simp [valErrorsUpdate, urlErrorsUpdate, hu1, hu2]
      · simp [valErrorsUpdate, urlErrorsUpdate, h]
      · simp [valErrorsUpdate, titleErrorsUpdate, h]
      · simp [valErrorsUpdate, titleErrorsUpdate, h]
    have hmem : ∀ e ∈ valErrorsUpdate b,
        e = ("url", "Invalid URL") ∨ e = ("title", "Title cannot be empty") := by
      intro e he
      rcases List.mem_append.mp he with he | he
      · exact Or.inl (mem_urlErrorsUpdate he)
      · exact Or.inr (mem_titleErrorsUpdate he)
    exact ⟨by simp [putBookmarks, hne], ⟨valErrorsUpdate b,
      by simp [putBookmarks, hne], hne, hmem⟩, by simp [putBookmarks, hne]⟩
  · intro hu ht hnone
    have hval : valErrorsUpdate b = [] := valErrorsUpdate_eq_nil.mpr ⟨hu, ht⟩
    have hg : dbGet s i = none := dbGet_eq_none.mpr hnone
    simp [putBookmarks, hval, hg]

/-- Witness for C6: updating with an invalid url gets 400 on a one-row
store; a validated update of the unused id "zz" gets 404. -/
theorem update_invalid_spec_witness :
    ((∃ u, JsVal.str "not-a-url" = JsVal.str u ∧ isURL u = false) ∨
      JsVal.str "not-a-url" = JsVal.null ∨ (JsVal.undef : JsVal) = JsVal.str "" ∨
      (JsVal.undef : JsVal) = JsVal.null) ∧
    (putBookmarks [⟨"a1", "https://ex.com", "T", none, "t0"⟩] "a1"
        ⟨JsVal.str "not-a-url", JsVal.undef, JsVal.undef⟩ false).status = 400 ∧
    (putBookmarks [⟨"a1", "https://ex.com", "T", none, "t0"⟩] "a1"
        ⟨JsVal.str "not-a-url", JsVal.undef, JsVal.undef⟩ false).store
      = [⟨"a1", "https://ex.com", "T", none, "t0"⟩] ∧
    putBookmarks [⟨"a1", "https://ex.com", "T", none, "t0"⟩] "zz"
        ⟨JsVal.undef, JsVal.str "New", JsVal.undef⟩ false
      = ⟨404, Resp.msg "Bookmark not found",
          [⟨"a1", "https://ex.com", "T", none, "t0"⟩]⟩ :=
  ⟨Or.inl ⟨"not-a-url", rfl, by decide⟩,
   ((update_invalid_spec [⟨"a1", "https://ex.com", "T", none, "t0"⟩] "a1"
        ⟨JsVal.str "not-a-url", JsVal.undef, JsVal.undef⟩).1
      (Or.inl ⟨"not-a-url", rfl, by decide⟩)).1,
   ((update_invalid_spec [⟨"a1", "https://ex.com", "T", none, "t0"⟩] "a1"
        ⟨JsVal.str "not-a-url", JsVal.undef, JsVal.undef⟩).1
      (Or.inl ⟨"not-a-url", rfl, by decide⟩)).2.2,
   (update_invalid_spec [⟨"a1", "https://ex.com", "T", none, "t0"⟩] "zz"
        ⟨JsVal.undef, JsVal.str "New", JsVal.undef⟩).2
      (Or.inl rfl) (Or.inr ⟨"New", rfl, by decide⟩) (by decide)⟩

/-- Claim C9: a validated create whose body supplies description as the empty
string persists the row with description NULL (`description || null`), the
same stored row as when description is omitted entirely. -/
theorem create_empty_description_null (s : Store) (i t u x : String)
    (hu : isURL u = true) (hx : x ≠ "") (hfresh : ∀ r ∈ s, r.id ≠ i) :
    (postBookmarks s ⟨JsVal.str u, JsVal.str x, JsVal.str ""⟩ i t false).store
      = s ++ [⟨i, u, x, none, t⟩] ∧
    (postBookmarks s ⟨JsVal.str u, JsVal.str x, JsVal.str ""⟩ i t false).store
      = (postBookmarks s ⟨JsVal.str u, JsVal.str x, JsVal.undef⟩ i t false).store := by
  have hex : dbIdExists s i = false := dbIdExists_eq_false.mpr hfresh
  constructor <;>
    simp [postBookmarks, valErrorsCreate, urlErrorsCreate, titleErrorsCreate,
      hu, hx, hex, jsOrNull, JsVal.getStr]

/-- Witness for C9: creating with description `""` on the empty store stores
the row with a NULL description. -/
theorem create_empty_description_null_witness :
    isURL "https://ex.com" = true ∧ ("T" : String) ≠ "" ∧
    (postBookmarks [] ⟨JsVal.str "https://ex.com", JsVal.str "T", JsVal.str ""⟩
        "id1" "t0" false).store
      = [⟨"id1", "https://ex.com", "T", none, "t0"⟩] :=
  ⟨by decide, by decide,
   (create_empty_description_null [] "id1" "t0" "https://ex.com" "T"
      (by decide) (by decide) (by decide)).1⟩

/-- Claim C10: an update on an existing bookmark whose body supplies
description explicitly as null keeps the prior description in both the
response and the persisted row (`description ?? bookmark.description`); the
update operation cannot clear description to null. -/
theorem update_null_description_keeps (s : Store) (i : String) (b : Body)
    (bm : Bookmark) (hd : b.description = JsVal.null)
    (hval : valErrorsUpdate b = []) (hfind : dbGet s i = some bm) :
    ∃ u t, (putBookmarks s i b false).resp
        = Resp.record ⟨bm.id, u, t, optToJs bm.description, bm.created_at⟩ ∧
      dbGet (putBookmarks s i b false).store i
        = some { bm with url := u, title := t } := by
  refine ⟨nullishStr b.url bm.url, nullishStr b.title bm.title, ?_, ?_⟩
  · simp [putBookmarks, hval, hfind, nullishOpt, hd]
  · have hst : (putBookmarks s i b false).store
        = dbUpdateRow s i (nullishStr b.url bm.url) (nullishStr b.title bm.title)
            (nullishOpt b.description bm.description) := by
      simp [putBookmarks, hval, hfind]
    rw [hst, dbGet_dbUpdateRow hfind]
    rw [hd]
    rfl

/-- Witness for C10: updating "a1" with body `{description: null}` keeps the
stored description "old". -/
theorem update_null_description_keeps_witness :
    (⟨JsVal.undef, JsVal.undef, JsVal.null⟩ : Body).description = JsVal.null ∧
    valErrorsUpdate ⟨JsVal.undef, JsVal.undef, JsVal.null⟩ = [] ∧
    dbGet [⟨"a1", "https://ex.com", "T", some "old", "t0"⟩] "a1"
      = some ⟨"a1", "https://ex.com", "T", some "old", "t0"⟩ ∧
    (∃ u t, (putBookmarks [⟨"a1", "https://ex.com", "T", some "old", "t0"⟩] "a1"
          ⟨JsVal.undef, JsVal.undef, JsVal.null⟩ false).resp
        = Resp.record ⟨"a1", u, t, optToJs (some "old"), "t0"⟩ ∧
      dbGet (putBookmarks [⟨"a1", "https://ex.com", "T", some "old", "t0"⟩] "a1"
          ⟨JsVal.undef, JsVal.undef, JsVal.null⟩ false).store "a1"
        = some ⟨"a1", u, t, some "old", "t0"⟩) :=
  ⟨rfl, by decide, by decide,
   update_null_description_keeps
     [⟨"a1", "https://ex.com", "T", some "old", "t0"⟩] "a1"
     ⟨JsVal.undef, JsVal.undef, JsVal.null⟩
     ⟨"a1", "https://ex.com", "T", some "old", "t0"⟩
     rfl (by decide) (by decide)⟩

/-- Claim C1 counterexample: the body `{description: null}` passes update
validation and supplies the description field, yet on the existing row "a1"
the handler keeps the prior description "old" in the response and in the
persisted row instead of taking the supplied value null. -/
theorem put_supplied_null_not_taken :
    valErrorsUpdate ⟨JsVal.undef, JsVal.undef, JsVal.null⟩ = [] ∧
    (putBookmarks [⟨"a1", "https://ex.com", "T", some "old", "t0"⟩] "a1"
        ⟨JsVal.undef, JsVal.undef, JsVal.null⟩ false).status = 200 ∧
    (putBookmarks [⟨"a1", "https://ex.com", "T", some "old", "t0"⟩] "a1"
        ⟨JsVal.undef, JsVal.undef, JsVal.null⟩ false).resp
      = Resp.record ⟨"a1", "https://ex.com", "T", JsVal.str "old", "t0"⟩ ∧
    (putBookmarks [⟨"a1", "https://ex.com", "T", some "old", "t0"⟩] "a1"
        ⟨JsVal.undef, JsVal.undef, JsVal.null⟩ false).resp
      ≠ Resp.record ⟨"a1", "https://ex.com", "T", JsVal.null, "t0"⟩ ∧
    dbGet (putBookmarks [⟨"a1", "https://ex.com", "T", some "old", "t0"⟩] "a1"
        ⟨JsVal.undef, JsVal.undef, JsVal.null⟩ false).store "a1"
      = some ⟨"a1", "https://ex.com", "T", some "old", "t0"⟩ := by
  decide

/-- Claim C1 amended: a validated update on an existing id responds 200 with
the merged record (id and created_at from the prior row) and persists it;
every field supplied with a string value takes the supplied value and every
absent field keeps its prior value — but a description supplied as null also
keeps the prior value (nullish coalescing), rather than being taken. -/
theorem put_merge_semantics (s : Store) (i : String) (b : Body)
    (bm : Bookmark) (hval : valErrorsUpdate b = [])
    (hfind : dbGet s i = some bm) :
    ∃ u t d,
      (putBookmarks s i b false).status = 200 ∧
      (putBookmarks s i b false).resp
        = Resp.record ⟨bm.id, u, t, optToJs d, bm.created_at⟩ ∧
      dbGet (putBookmarks s i b false).store i
        = some { bm with url := u, title := t, description := d } ∧
      (∀ r ∈ s, r.id ≠ i → r ∈ (putBookmarks s i b false).store) ∧
      (∀ y, b.url = JsVal.str y → u = y) ∧
      (b.url = JsVal.undef → u = bm.url) ∧
      (∀ y, b.title = JsVal.str y → t = y) ∧
      (b.title = JsVal.undef → t = bm.title) ∧
      (∀ y, b.description = JsVal.str y → d = some y) ∧
      ((b.description = JsVal.undef ∨ b.description = JsVal.null) →
        d = bm.description) := by
  have hst : (putBookmarks s i b false).store
      = dbUpdateRow s i (nullishStr b.url bm.url) (nullishStr b.title bm.title)
          (nullishOpt b.description bm.description) := by
    simp [putBookmarks, hval, hfind]
  refine ⟨nullishStr b.url bm.url, nullishStr b.title bm.title,
    nullishOpt b.description bm.description,
    by simp [putBookmarks, hval, hfind],
    by simp [putBookmarks, hval, hfind],
    by rw [hst, dbGet_dbUpdateRow hfind],
    ?_, ?_, ?_, ?_, ?_, ?_, ?_⟩
  · intro r hr hri
    rw [hst]
    exact mem_dbUpdateRow_of_ne hr hri _ _ _
  · intro y hy
    rw [hy]
    rfl
  · intro hy
    rw [hy]
    rfl
  · intro y hy
    rw [hy]
    rfl
  · intro hy
    rw [hy]
    rfl
  · intro y hy
    rw [hy]
    rfl
  · rintro (hy | hy) <;> rw [hy] <;> rfl

/-- Witness for C1 at a concrete input: an update supplying only
`{description: "x"}` on the one-row store keeps url and title and changes
only the description. -/
theorem put_merge_semantics_witness :
    valErrorsUpdate ⟨JsVal.undef, JsVal.undef, JsVal.str "x"⟩ = [] ∧
    dbGet [⟨"a1", "https://ex.com", "T", some "old", "t0"⟩] "a1"
      = some ⟨"a1", "https://ex.com", "T", some "old", "t0"⟩ ∧
    (∃ u t d,
      (putBookmarks [⟨"a1", "https://ex.com", "T", some "old", "t0"⟩] "a1"
          ⟨JsVal.undef, JsVal.undef, JsVal.str "x"⟩ false).status = 200 ∧
      (putBookmarks [⟨"a1", "https://ex.com", "T", some "old", "t0"⟩] "a1"
          ⟨JsVal.undef, JsVal.undef, JsVal.str "x"⟩ false).resp
        = Resp.record ⟨"a1", u, t, optToJs d, "t0"⟩ ∧
      dbGet (putBookmarks [⟨"a1", "https://ex.com", "T", some "old", "t0"⟩] "a1"
          ⟨JsVal.undef, JsVal.undef, JsVal.str "x"⟩ false).store "a1"
        = some ⟨"a1", u, t, d, "t0"⟩ ∧
      (∀ r ∈ ([⟨"a1", "https://ex.com", "T", some "old", "t0"⟩] : Store),
        r.id ≠ "a1" →
        r ∈ (putBookmarks [⟨"a1", "https://ex.com", "T", some "old", "t0"⟩] "a1"
          ⟨JsVal.undef, JsVal.undef, JsVal.str "x"⟩ false).store) ∧
      (∀ y, (JsVal.undef : JsVal) = JsVal.str y → u = y) ∧
      ((JsVal.undef : JsVal) = JsVal.undef → u = "https://ex.com") ∧
      (∀ y, (JsVal.undef : JsVal) = JsVal.str y → t = y) ∧
      ((JsVal.undef : JsVal) = JsVal.undef → t = "T") ∧
      (∀ y, JsVal.str "x" = JsVal.str y → d = some y) ∧
      ((JsVal.str "x" = JsVal.undef ∨ JsVal.str "x" = JsVal.null) →
        d = some "old")) :=
  ⟨by decide, by decide,
   put_merge_semantics [⟨"a1", "https://ex.com", "T", some "old", "t0"⟩] "a1"
     ⟨JsVal.undef, JsVal.undef, JsVal.str "x"⟩
     ⟨"a1", "https://ex.com", "T", some "old", "t0"⟩
     (by decide) (by decide)⟩

/-- Claim C2 counterexample: a validated create with description omitted
responds 201, but the handler echoes the raw body value (`undefined`), so
the serialized JSON response has no description key at all — the response
does not contain description null (while the persisted row does store NULL). -/
theorem create_omitted_description_not_null :
    (postBookmarks [] ⟨JsVal.str "https://ex.com", JsVal.str "T", JsVal.undef⟩
        "id1" "t0" false).status = 201 ∧
    (postBookmarks [] ⟨JsVal.str "https://ex.com", JsVal.str "T", JsVal.undef⟩
        "id1" "t0" false).resp
      = Resp.record ⟨"id1", "https://ex.com", "T", JsVal.undef, "t0"⟩ ∧
    (postBookmarks [] ⟨JsVal.str "https://ex.com", JsVal.str "T", JsVal.undef⟩
        "id1" "t0" false).resp
      ≠ Resp.record ⟨"id1", "https://ex.com", "T", JsVal.null, "t0"⟩ ∧
    (postBookmarks [] ⟨JsVal.str "https://ex.com", JsVal.str "T", JsVal.undef⟩
        "id1" "t0" false).store
      = [⟨"id1", "https://ex.com", "T", none, "t0"⟩] := by
  decide

/-- Claim C2 amended: a validated create generates a fresh id and timestamp,
persists the row (with description NULL when omitted), and responds 201 with
a record carrying id, url, title, created_at and the raw body description —
so an omitted description is absent from the response rather than null. -/
theorem create_spec (s : Store) (b : Body) (i t : String)
    (hval : (∃ u, b.url = JsVal.str u ∧ isURL u = true) ∧
            (∃ x, b.title = JsVal.str x ∧ x ≠ ""))
    (hfresh : ∀ r ∈ s, r.id ≠ i) :
    ∃ u x d,
      b.url = JsVal.str u ∧ b.title = JsVal.str x ∧
      (postBookmarks s b i t false).status = 201 ∧
      (postBookmarks s b i t false).resp
        = Resp.record ⟨i, u, x, b.description, t⟩ ∧
      (postBookmarks s b i t false).store = s ++ [⟨i, u, x, d, t⟩] ∧
      (∀ y, b.description = JsVal.str y → y ≠ "" → d = some y) ∧
      (b.description = JsVal.undef → d = none) := by
  rcases hval with ⟨⟨u, hu, hu2⟩, ⟨x, hx, hx2⟩⟩
  have hval0 : valErrorsCreate b = [] :=
    valErrorsCreate_eq_nil.mpr ⟨⟨u, hu, hu2⟩, ⟨x, hx, hx2⟩⟩
  have hex : dbIdExists s i = false := dbIdExists_eq_false.mpr hfresh
  have hgu : b.url.getStr = u := by rw [hu]; rfl
  have hgx : b.title.getStr = x := by rw [hx]; rfl
  refine ⟨u, x, jsOrNull b.description, hu, hx,
    by simp [postBookmarks, hval0, hex],
    by simp [postBookmarks, hval0, hex, hgu, hgx],
    by simp [postBookmarks, hval0, hex, hgu, hgx], ?_, ?_⟩
  · intro y hy hy2
    rw [hy]
    simp [jsOrNull, hy2]
  · intro hy
    rw [hy]
    rfl

/-- Witness for C2 at a concrete input: a create with description omitted on
the empty store. -/
theorem create_spec_witness :
    ((∃ u, JsVal.str "https://ex.com" = JsVal.str u ∧ isURL u = true) ∧
      (∃ x, JsVal.str "T" = JsVal.str x ∧ x ≠ "")) ∧
    (∃ u x d,
      (JsVal.str "https://ex.com" : JsVal) = JsVal.str u ∧
      (JsVal.str "T" : JsVal) = JsVal.str x ∧
      (postBookmarks [] ⟨JsVal.str "https://ex.com", JsVal.str "T", JsVal.undef⟩
          "id1" "t0" false).status = 201 ∧
      (postBookmarks [] ⟨JsVal.str "https://ex.com", JsVal.str "T", JsVal.undef⟩
          "id1" "t0" false).resp
        = Resp.record ⟨"id1", u, x, JsVal.undef, "t0"⟩ ∧
      (postBookmarks [] ⟨JsVal.str "https://ex.com", JsVal.str "T", JsVal.undef⟩
          "id1" "t0" false).store = [] ++ [⟨"id1", u, x, d, "t0"⟩] ∧
      (∀ y, (JsVal.undef : JsVal) = JsVal.str y → y ≠ "" → d = some y) ∧
      ((JsVal.undef : JsVal) = JsVal.undef → d = none)) :=
  ⟨⟨⟨"https://ex.com", rfl, by decide⟩, ⟨"T", rfl, by decide⟩⟩,
   create_spec [] ⟨JsVal.str "https://ex.com", JsVal.str "T", JsVal.undef⟩
     "id1" "t0" ⟨⟨"https://ex.com", rfl, by decide⟩, ⟨"T", rfl, by decide⟩⟩
     (by decide)⟩

/-- Claim C7: create with a valid url and title, then update supplying only
a new valid url, then get-by-id: the returned record has the new url and the
title and created_at assigned at creation. -/
theorem create_update_get_roundtrip (s : Store) (i ts u0 u1 x : String)
    (d0 : JsVal) (hu0 : isURL u0 = true) (hu1 : isURL u1 = true) (hx : x ≠ "")
    (hfresh : ∀ r ∈ s, r.id ≠ i) :
    ∃ dv,
      (getBookmarkById
        (putBookmarks
          (postBookmarks s ⟨JsVal.str u0, JsVal.str x, d0⟩ i ts false).store
          i ⟨JsVal.str u1, JsVal.undef, JsVal.undef⟩ false).store
        i false).status = 200 ∧
      (getBookmarkById
        (putBookmarks
          (postBookmarks s ⟨JsVal.str u0, JsVal.str x, d0⟩ i ts false).store
          i ⟨JsVal.str u1, JsVal.undef, JsVal.undef⟩ false).store
        i false).resp = Resp.record ⟨i, u1, x, dv, ts⟩ := by
  have hex : dbIdExists s i = false := dbIdExists_eq_false.mpr hfresh
  have hs1 : (postBookmarks s ⟨JsVal.str u0, JsVal.str x, d0⟩ i ts false).store
      = s ++ [⟨i, u0, x, jsOrNull d0, ts⟩] := by
    simp [postBookmarks, valErrorsCreate, urlErrorsCreate, titleErrorsCreate,
      hu0, hx, hex, JsVal.getStr]
  have hget1 : dbGet (s ++ [⟨i, u0, x, jsOrNull d0, ts⟩]) i
      = some ⟨i, u0, x, jsOrNull d0, ts⟩ := by
    rw [dbGet_append_fresh hfresh]
    simp
  have hval1 : valErrorsUpdate ⟨JsVal.str u1, JsVal.undef, JsVal.undef⟩ = [] := by
    simp [valErrorsUpdate, urlErrorsUpdate, titleErrorsUpdate, hu1]
  have hs2 : (putBookmarks (s ++ [⟨i, u0, x, jsOrNull d0, ts⟩]) i
        ⟨JsVal.str u1, JsVal.undef, JsVal.undef⟩ false).store
      = dbUpdateRow (s ++ [⟨i, u0, x, jsOrNull d0, ts⟩]) i u1 x (jsOrNull d0) := by
    simp [putBookmarks, hval1, hget1, nullishStr, nullishOpt]
  have hget2 : dbGet (dbUpdateRow (s ++ [⟨i, u0, x, jsOrNull d0, ts⟩]) i
        u1 x (jsOrNull d0)) i = some ⟨i, u1, x, jsOrNull d0, ts⟩ :=
    dbGet_dbUpdateRow hget1 u1 x (jsOrNull d0)
  refine ⟨optToJs (jsOrNull d0), ?_, ?_⟩ <;>
    rw [hs1, hs2] <;> simp [getBookmarkById, hget2, Bookmark.toOut]

/-- Witness for C7 at concrete inputs: create "https://a.com"/"T", update the
url to "https://b.com", read back. -/
theorem create_update_get_roundtrip_witness :
    isURL "https://a.com" = true ∧ isURL "https://b.com" = true ∧
    ("T" : String) ≠ "" ∧
    (∃ dv,
      (getBookmarkById
        (putBookmarks
          (postBookmarks [] ⟨JsVal.str "https://a.com", JsVal.str "T", JsVal.undef⟩
            "id1" "t0" false).store
          "id1" ⟨JsVal.str "https://b.com", JsVal.undef, JsVal.undef⟩ false).store
        "id1" false).status = 200 ∧
      (getBookmarkById
        (putBookmarks
          (postBookmarks [] ⟨JsVal.str "https://a.com", JsVal.str "T", JsVal.undef⟩
            "id1" "t0" false).store
          "id1" ⟨JsVal.str "https://b.com", JsVal.undef, JsVal.undef⟩ false).store
        "id1" false).resp = Resp.record ⟨"id1", "https://b.com", "T", dv, "t0"⟩) :=
  ⟨by decide, by decide, by decide,
   create_update_get_roundtrip [] "id1" "t0" "https://a.com" "https://b.com"
     "T" JsVal.undef (by decide) (by decide) (by decide) (by decide)⟩

theorem postBookmarks_store (s : Store) (b : Body) (i t : String) (f : Bool) :
    (postBookmarks s b i t f).store = s ∨
    (valErrorsCreate b = [] ∧ dbIdExists s i = false ∧
      (postBookmarks s b i t f).store
        = s ++ [⟨i, b.url.getStr, b.title.getStr, jsOrNull b.description, t⟩]) := by
  by_cases hval : valErrorsCreate b = []
  · cases f with
    | false =>
      cases hex : dbIdExists s i with
      | false =>
        exact Or.inr ⟨hval, rfl, by simp [postBookmarks, hval, hex]⟩
      | true => exact Or.inl (by simp [postBookmarks, hval, hex])
    | true => exact Or.inl (by simp [postBookmarks, hval])
  · exact Or.inl (by simp [postBookmarks, hval])

theorem putBookmarks_store (s : Store) (i : String) (b : Body) (f : Bool) :
    (putBookmarks s i b f).store = s ∨
    (valErrorsUpdate b = [] ∧ ∃ bm, dbGet s i = some bm ∧
      (putBookmarks s i b f).store
        = dbUpdateRow s i (nullishStr b.url bm.url) (nullishStr b.title bm.title)
            (nullishOpt b.description bm.description)) := by
  by_cases hval : valErrorsUpdate b = []
  · cases f with
    | false =>
      cases hg : dbGet s i with
      | none => exact Or.inl (by simp [putBookmarks, hval, hg])
      | some bm =>
        exact Or.inr ⟨hval, bm, rfl, by simp [putBookmarks, hval, hg]⟩
    | true => exact Or.inl (by simp [putBookmarks, hval])
  · exact Or.inl (by simp [putBookmarks, hval])

theorem deleteBookmark_store (s : Store) (i : String) (f : Bool) :
    (deleteBookmark s i f).store = s ∨
    (deleteBookmark s i f).store = dbDeleteRows s i := by
  cases f with
  | false =>
    by_cases hc : dbChanges s i = 0 <;>
      exact Or.inr (by simp [deleteBookmark, hc])
  | true => exact Or.inl (by simp [deleteBookmark])

theorem storeWF_applyOp {s : Store} (h : StoreWF s) (op : Op) :
    StoreWF (applyOp s op) := by
  rcases h with ⟨hnd, hrow⟩
  cases op with
  | create b i t f =>
    rcases postBookmarks_store s b i t f with heq | ⟨hval, hex, heq⟩
    · rw [applyOp, heq]
      exact ⟨hnd, hrow⟩
    · rw [applyOp, heq]
      rcases valErrorsCreate_eq_nil.mp hval with ⟨⟨u, hu, hu2⟩, ⟨x, hx, hx2⟩⟩
      have hgu : b.url.getStr = u := by rw [hu]; rfl
      have hgx : b.title.getStr = x := by rw [hx]; rfl
      constructor
      · rw [List.map_append]
        refine List.nodup_append.mpr ⟨hnd, List.nodup_singleton _, ?_⟩
        intro a ha hb
        simp at hb
        rcases List.mem_map.mp ha with ⟨r, hr, hri⟩
        exact (dbIdExists_eq_false.mp hex r hr) (by rw [← hb, ← hri])
      · intro r hr
        rcases List.mem_append.mp hr with hr | hr
        · exact hrow r hr
        · simp at hr
          subst hr
          simp [hgu, hgx]
          exact ⟨hu2, hx2⟩
  | update i b f =>
    rcases putBookmarks_store s i b f with heq | ⟨hval, bm, hg, heq⟩
    · rw [applyOp, heq]
      exact ⟨hnd, hrow⟩
    · rw [applyOp, heq]
      rcases dbGet_mem hg with ⟨hbm, hbmi⟩
      have hbmwf := hrow bm hbm
      have hu' : isURL (nullishStr b.url bm.url) = true := by
        rcases (valErrorsUpdate_eq_nil.mp hval).1 with h' | ⟨u, h', h2'⟩
        · rw [h']
          exact hbmwf.1
        · rw [h']
          exact h2'
      have ht' : nullishStr b.title bm.title ≠ "" := by
        rcases (valErrorsUpdate_eq_nil.mp hval).2 with h' | ⟨x, h', h2'⟩
        · rw [h']
          exact hbmwf.2
        · rw [h']
          exact h2'
      constructor
      · rw [dbUpdateRow_map_id]
        exact hnd
      · intro r hr
        rcases List.mem_map.mp hr with ⟨r0, hr0, hr0e⟩
        subst hr0e
        by_cases h0 : r0.id = i
        · simp [h0]
          exact ⟨hu', ht'⟩
        · simp [h0]
          exact hrow r0 hr0
  | del i f =>
    rcases deleteBookmark_store s i f with heq | heq <;> rw [applyOp, heq]
    · exact ⟨hnd, hrow⟩
    · constructor
      · exact List.Nodup.sublist (List.Sublist.map _ (List.filter_sublist s)) hnd
      · intro r hr
        exact hrow r (mem_dbDeleteRows hr).1

theorem createdAt_stable {s : Store} (h : StoreWF s) (op : Op)
    {r r' : Bookmark} (hr : r ∈ s) (hr' : r' ∈ applyOp s op)
    (hid : r'.id = r.id) : r'.created_at = r.created_at := by
  have heqrows : ∀ x ∈ s, x.id = r.id → x.created_at = r.created_at := by
    intro x hx hxi
    rw [eq_of_nodup_ids h.1 hx hr hxi]
  cases op with
  | create b i t f =>
    rcases postBookmarks_store s b i t f with heq | ⟨hval, hex, heq⟩
    · rw [applyOp, heq] at hr'
      exact heqrows r' hr' hid
    · rw [applyOp, heq] at hr'
      rcases List.mem_append.mp hr' with hr' | hr'
      · exact heqrows r' hr' hid
      · simp at hr'
        subst hr'
        exact absurd (hid ▸ rfl : r.id = i).symm
          (fun hh => dbIdExists_eq_false.mp hex r hr hh.symm)
  | update i b f =>
    rcases putBookmarks_store s i b f with heq | ⟨hval, bm, hg, heq⟩
    · rw [applyOp, heq] at hr'
      exact heqrows r' hr' hid
    · rw [applyOp, heq] at hr'
      rcases List.mem_map.mp hr' with ⟨r0, hr0, hr0e⟩
      have hkeep : r'.id = r0.id ∧ r'.created_at = r0.created_at := by
        subst hr0e
        by_cases h0 : r0.id = i <;> simp [h0]
      rw [hkeep.2, heqrows r0 hr0 (hkeep.1 ▸ hid)]
  | del i f =>
    rcases deleteBookmark_store s i f with heq | heq <;> rw [applyOp, heq] at hr'
    · exact heqrows r' hr' hid
    · exact heqrows r' (mem_dbDeleteRows hr').1 hid

theorem createdAt_assigned {s : Store} (b : Body) (i t : String) (f : Bool)
    {r' : Bookmark} (hr' : r' ∈ applyOp s (Op.create b i t f)) (hnew : r' ∉ s) :
    r'.created_at = t := by
  rcases postBookmarks_store s b i t f with heq | ⟨hval, hex, heq⟩
  · rw [applyOp, heq] at hr'
    exact absurd hr' hnew
  · rw [applyOp, heq] at hr'
    rcases List.mem_append.mp hr' with hr' | hr'
    · exact absurd hr' hnew
    · simp at hr'
      subst hr'
      rfl

/-- Claim C3: in every store reachable by any sequence of create, update and
delete requests, the ids are pairwise distinct (each id names zero or one
row), every row's url and title are non-empty, no operation changes the
created_at of a surviving row, and a row added by a create carries that
create's timestamp. -/
theorem reachable_invariants (s : Store) (h : Reachable s) :
    StoreWF s ∧
    (∀ r ∈ s, r.url ≠ "" ∧ r.title ≠ "") ∧
    (∀ op, ∀ r ∈ s, ∀ r' ∈ applyOp s op, r'.id = r.id →
      r'.created_at = r.created_at) ∧
    (∀ b i t f, ∀ r' ∈ applyOp s (Op.create b i t f), r' ∉ s →
      r'.created_at = t) := by
  have hwf : StoreWF s := by
    induction h with
    | empty => exact ⟨List.nodup_nil, fun r hr => absurd hr (List.not_mem_nil r)⟩
    | step op hs ih => exact storeWF_applyOp ih op
  refine ⟨hwf, ?_, ?_, ?_⟩
  · intro r hr
    exact ⟨isURL_ne_empty (hwf.2 r hr).1, (hwf.2 r hr).2⟩
  · intro op r hr r' hr' hid
    exact createdAt_stable hwf op hr hr' hid
  · intro b i t f r' hr' hn
    exact createdAt_assigned b i t f hr' hn

/-- Witness for C3: the store reached by one successful create from the
empty table satisfies the invariant. -/
theorem reachable_invariants_witness :
    Reachable (applyOp []
      (Op.create ⟨JsVal.str "https://ex.com", JsVal.str "T", JsVal.undef⟩
        "id1" "t0" false)) ∧
    StoreWF (applyOp []
      (Op.create ⟨JsVal.str "https://ex.com", JsVal.str "T", JsVal.undef⟩
        "id1" "t0" false)) :=
  ⟨Reachable.step _ Reachable.empty,
   (reachable_invariants _ (Reachable.step _ Reachable.empty)).1⟩

end BookmarkAPI
